import Mathlib

set_option maxRecDepth 4000

/-!
Verification of the spiking-neuron simulation core of this repository.

The repository ships only the driver (`src/main.cpp`): it constructs a
`MindData` record with randomized fields, calls `mind_validate`, then calls
`mind_step` in an unbounded loop. The `mind` module that defines `MindData`,
`mind_validate` and `mind_step` is imported by the driver but its source is
not in the repository, so the core is modelled here from the specification
(sections 3, 4.1 and 4.2). Floating-point numbers are idealised as rational
numbers; with rationals every value is automatically finite, so the
spec's finiteness checks hold by construction.

Rational arithmetic is expressed through the kernel-computable wrappers
`qadd`, `qsub`, `qmul` and `qmax` (the library's `Rat.add` and friends are
irreducible, which would block evaluation of the model on concrete states);
each wrapper is proved equal to the corresponding standard operation.
-/

/-- Kernel-computable addition on `ℚ`, provably equal to `+`. -/
def qadd (a b : ℚ) : ℚ := mkRat (a.num * b.den + b.num * a.den) (a.den * b.den)

/-- Kernel-computable subtraction on `ℚ`, provably equal to `-`. -/
def qsub (a b : ℚ) : ℚ := mkRat (a.num * b.den - b.num * a.den) (a.den * b.den)

/-- Kernel-computable multiplication on `ℚ`, provably equal to `*`. -/
def qmul (a b : ℚ) : ℚ := mkRat (a.num * b.num) (a.den * b.den)

/-- Kernel-computable maximum on `ℚ`, provably equal to `max`. -/
def qmax (a b : ℚ) : ℚ := if a ≤ b then b else a

theorem qadd_eq (a b : ℚ) : qadd a b = a + b := (Rat.add_def' a b).symm

theorem qsub_eq (a b : ℚ) : qsub a b = a - b := (Rat.sub_def' a b).symm

theorem qmul_eq (a b : ℚ) : qmul a b = a * b := by
  rw [Rat.mul_def, Rat.normalize_eq_mkRat, qmul]

theorem qmax_eq (a b : ℚ) : qmax a b = max a b := (max_def a b).symm

/-- Modelled from the spec: the `mind` module's `MindData` record (spec section 3),
whose source is missing from the repository; field names and order follow the
designated initializers in `src/main.cpp`. Floats are idealised as `ℚ`. -/
structure MindData where
  tick : Nat
  activation_thresholds : List ℚ
  outputs_weights : List (List ℚ)
  input_weights : List (List ℚ)
  reactivation_delays : List ℚ
  next_activations : List ℚ
  signal_map : List ℚ
  neural_activity : List ℚ
deriving DecidableEq

/-- Dot product of two rational vectors (pairwise product, then sum). -/
def dot : List ℚ → List ℚ → ℚ
  | [], _ => 0
  | _ :: _, [] => 0
  | a :: as, b :: bs => qadd (qmul a b) (dot as bs)

/-- Matrix-vector product: row `i` of the result is `dot (m[i]) v`. -/
def matVec (m : List (List ℚ)) (v : List ℚ) : List ℚ := m.map (fun row => dot row v)

/-- Modelled from the spec: phase 1 of `mind_step` (input aggregation), the
matrix-vector product of `input_weights` with the current `neural_activity`. -/
def aggInput (s : MindData) : List ℚ := matVec s.input_weights s.neural_activity

/-- Modelled from the spec: the running potential of neuron `i` used by the
firing decision — the aggregated input of neuron `i` combined with the
neuron's own current activity (spec section 4.2 phase 2, as fixed by the
concrete scenario of spec section 8). -/
def potential (s : MindData) (i : Nat) : ℚ :=
  qadd (dot (s.input_weights.getD i []) s.neural_activity) (s.neural_activity.getD i 0)

/-- Modelled from the spec: neuron `i` is eligible to fire iff
`next_activations[i] <= 0` (not refractory). -/
def eligible (s : MindData) (i : Nat) : Bool :=
  decide (s.next_activations.getD i 0 ≤ 0)

/-- Modelled from the spec: the firing decision (spec section 4.2 phase 2):
neuron `i` fires iff it is eligible and its running potential meets or
exceeds its activation threshold. -/
def fired (s : MindData) (i : Nat) : Bool :=
  eligible s i && decide (s.activation_thresholds.getD i 1 ≤ potential s i)

/-- Modelled from the spec: the signal vector emitted by the fired set:
entry `j` is `signal_map[j]` when neuron `j` fired this tick and `0`
otherwise. -/
def firedSignal (s : MindData) : List ℚ :=
  (List.range s.signal_map.length).map (fun j => if fired s j then s.signal_map.getD j 0 else 0)

/-- Modelled from the spec: phase 3 of `mind_step` (output propagation), the
matrix-vector product of `outputs_weights` with the fired-signal vector. -/
def outputProp (s : MindData) : List ℚ := matVec s.outputs_weights (firedSignal s)

/-- Modelled from the spec: phase 5 of `mind_step` (refractory update) for
neuron `i`: a fired neuron receives exactly `reactivation_delays[i]` ticks of
refractory; otherwise a positive countdown is decremented by one. -/
def nextRefractory (s : MindData) (i : Nat) : ℚ :=
  if fired s i then s.reactivation_delays.getD i 0
  else if 0 < s.next_activations.getD i 0 then qsub (s.next_activations.getD i 0) 1
  else s.next_activations.getD i 0

/-- Modelled from the spec: `mind_step` (spec section 4.2), one discrete tick.
All phases read the state as it was at the start of the call (a functional
snapshot, the double-buffering of spec section 5): input aggregation, firing
decision, output propagation, activity update (clipped non-negative),
refractory update, tick advance. -/
def mind_step (s : MindData) : MindData :=
  MindData.mk (s.tick + 1)
    s.activation_thresholds
    s.outputs_weights
    s.input_weights
    s.reactivation_delays
    ((List.range s.next_activations.length).map (nextRefractory s))
    s.signal_map
    (List.zipWith (fun a p => qmax 0 (qadd a p)) (aggInput s) (outputProp s))

/-- Iterated `mind_step`: `stepN n s` is the state after `n` ticks. -/
def stepN : Nat → MindData → MindData
  | 0, s => s
  | n + 1, s => mind_step (stepN n s)

/-- Modelled from the spec: the error taxonomy of the validator
(spec section 7). -/
inductive ValidationError where
  | ShapeMismatch : ValidationError
  | OutOfRange : ValidationError
  | NonZeroSelfWeight : ValidationError
deriving DecidableEq

/-- Membership test for the half-open interval `[0, 1)`. -/
def inUnit (x : ℚ) : Bool := decide (0 ≤ x) && decide (x < 1)

/-- Membership test for the half-open interval `[0, 10)`. -/
def inDelay (x : ℚ) : Bool := decide (0 ≤ x) && decide (x < 10)

/-- Modelled from the spec: the validator's shape check — all five vectors
share the length of `activation_thresholds` and both matrices are square of
that same dimension. -/
def shapeOkB (s : MindData) : Bool :=
  (s.reactivation_delays.length == s.activation_thresholds.length) &&
  (s.signal_map.length == s.activation_thresholds.length) &&
  (s.next_activations.length == s.activation_thresholds.length) &&
  (s.neural_activity.length == s.activation_thresholds.length) &&
  (s.outputs_weights.length == s.activation_thresholds.length) &&
  s.outputs_weights.all (fun row => row.length == s.activation_thresholds.length) &&
  (s.input_weights.length == s.activation_thresholds.length) &&
  s.input_weights.all (fun row => row.length == s.activation_thresholds.length)

/-- Modelled from the spec: the validator's range check — thresholds, signal
scaling factors and all matrix entries in `[0,1)`, reactivation delays in
`[0,10)`; the finiteness of `neural_activity` and `next_activations` is
automatic over `ℚ`. -/
def rangeOkB (s : MindData) : Bool :=
  s.activation_thresholds.all inUnit &&
  s.reactivation_delays.all inDelay &&
  s.signal_map.all inUnit &&
  s.outputs_weights.all (fun row => row.all inUnit) &&
  s.input_weights.all (fun row => row.all inUnit)

/-- Diagonal-zero test for a square matrix. -/
def diagZeroB (m : List (List ℚ)) : Bool :=
  (List.range m.length).all (fun i => (m.getD i []).getD i 1 == 0)

/-- Modelled from the spec: the validator's diagonal-zero check on both
weight matrices. -/
def diagOkB (s : MindData) : Bool :=
  diagZeroB s.outputs_weights && diagZeroB s.input_weights

/-- Modelled from the spec: `mind_validate` (spec section 4.1), checked in
order — shapes, then ranges, then diagonals — short-circuiting on the first
failure and reporting exactly one violation. -/
def mind_validate (s : MindData) : Except ValidationError Unit :=
  if shapeOkB s = false then Except.error ValidationError.ShapeMismatch
  else if rangeOkB s = false then Except.error ValidationError.OutOfRange
  else if diagOkB s = false then Except.error ValidationError.NonZeroSelfWeight
  else Except.ok ()

instance : DecidableEq (Except ValidationError Unit) := fun a b =>
  match a, b with
  | Except.ok (), Except.ok () => isTrue rfl
  | Except.error x, Except.error y =>
    match decEq x y with
    | isTrue h => isTrue (by rw [h])
    | isFalse h => isFalse (by intro hh; cases hh; exact h rfl)
  | Except.ok _, Except.error _ => isFalse (by intro h; cases h)
  | Except.error _, Except.ok _ => isFalse (by intro h; cases h)

theorem getD_range_map {α : Type} (f : Nat → α) {n i : Nat} (d : α) (h : i < n) :
    ((List.range n).map f).getD i d = f i := by
  rw [List.getD_eq_getElem?_getD]
  simp [List.getElem?_map, List.getElem?_range, h]

theorem getD_map_row (m : List (List ℚ)) (f : List ℚ → ℚ) {i : Nat} (d : ℚ) (hd : List ℚ)
    (h : i < m.length) : (m.map f).getD i d = f (m.getD i hd) := by
  rw [List.getD_eq_getElem?_getD, List.getD_eq_getElem?_getD]
  simp [List.getElem?_map, List.getElem?_eq_getElem h]

theorem getD_zipWith (g : ℚ → ℚ → ℚ) (a b : List ℚ) {i : Nat} (d : ℚ)
    (ha : i < a.length) (hb : i < b.length) :
    (List.zipWith g a b).getD i d = g (a.getD i d) (b.getD i d) := by
  rw [List.getD_eq_getElem?_getD, List.getD_eq_getElem?_getD, List.getD_eq_getElem?_getD]
  simp [List.getElem?_zipWith, List.getElem?_eq_getElem ha, List.getElem?_eq_getElem hb]

theorem step_thresholds (s : MindData) :
    (mind_step s).activation_thresholds = s.activation_thresholds := rfl

theorem step_outputs (s : MindData) : (mind_step s).outputs_weights = s.outputs_weights := rfl

theorem step_inputs (s : MindData) : (mind_step s).input_weights = s.input_weights := rfl

theorem step_delays (s : MindData) :
    (mind_step s).reactivation_delays = s.reactivation_delays := rfl

theorem step_signal (s : MindData) : (mind_step s).signal_map = s.signal_map := rfl

theorem step_tick (s : MindData) : (mind_step s).tick = s.tick + 1 := rfl

theorem stepN_thresholds (n : Nat) (s : MindData) :
    (stepN n s).activation_thresholds = s.activation_thresholds := by
  induction n with
  | zero => rfl
  | succ n ih => simp [stepN, step_thresholds, ih]

theorem stepN_delays (n : Nat) (s : MindData) :
    (stepN n s).reactivation_delays = s.reactivation_delays := by
  induction n with
  | zero => rfl
  | succ n ih => simp [stepN, step_delays, ih]

theorem stepN_outputs (n : Nat) (s : MindData) :
    (stepN n s).outputs_weights = s.outputs_weights := by
  induction n with
  | zero => rfl
  | succ n ih => simp [stepN, step_outputs, ih]

theorem stepN_inputs (n : Nat) (s : MindData) :
    (stepN n s).input_weights = s.input_weights := by
  induction n with
  | zero => rfl
  | succ n ih => simp [stepN, step_inputs, ih]

theorem stepN_signal (n : Nat) (s : MindData) :
    (stepN n s).signal_map = s.signal_map := by
  induction n with
  | zero => rfl
  | succ n ih => simp [stepN, step_signal, ih]

theorem step_next_length (s : MindData) :
    (mind_step s).next_activations.length = s.next_activations.length := by
  simp [mind_step]

theorem step_next_getD (s : MindData) {i : Nat} (h : i < s.next_activations.length) :
    (mind_step s).next_activations.getD i 0 = nextRefractory s i :=
  getD_range_map _ _ h

theorem step_activity_length (s : MindData) :
    (mind_step s).neural_activity.length =
      min s.input_weights.length s.outputs_weights.length := by
  simp [mind_step, aggInput, outputProp, matVec, List.length_zipWith]

theorem fired_of_pos_next (s : MindData) (i : Nat) (h : 0 < s.next_activations.getD i 0) :
    fired s i = false := by
  have hd : decide (s.next_activations.getD i 0 ≤ 0) = false :=
    decide_eq_false (not_le.mpr h)
  unfold fired eligible
  rw [hd, Bool.false_and]

theorem nextRefractory_of_fired (s : MindData) (i : Nat) (h : fired s i = true) :
    nextRefractory s i = s.reactivation_delays.getD i 0 := by
  unfold nextRefractory
  rw [h, if_pos rfl]

theorem nextRefractory_of_pos (s : MindData) (i : Nat) (hf : fired s i = false)
    (h : 0 < s.next_activations.getD i 0) :
    nextRefractory s i = s.next_activations.getD i 0 - 1 := by
  unfold nextRefractory
  rw [hf, if_neg (by simp), if_pos h, qsub_eq]

theorem nextRefractory_of_idle (s : MindData) (i : Nat) (hf : fired s i = false)
    (h : ¬ 0 < s.next_activations.getD i 0) :
    nextRefractory s i = s.next_activations.getD i 0 := by
  unfold nextRefractory
  rw [hf, if_neg (by simp), if_neg h]

/-- The validator's shape invariant, stated as a proposition: all five
vectors share the length of `activation_thresholds` and both matrices are
square of that dimension. -/
def ShapeInv (s : MindData) : Prop :=
  s.reactivation_delays.length = s.activation_thresholds.length ∧
  s.signal_map.length = s.activation_thresholds.length ∧
  s.next_activations.length = s.activation_thresholds.length ∧
  s.neural_activity.length = s.activation_thresholds.length ∧
  s.outputs_weights.length = s.activation_thresholds.length ∧
  (∀ row ∈ s.outputs_weights, row.length = s.activation_thresholds.length) ∧
  s.input_weights.length = s.activation_thresholds.length ∧
  (∀ row ∈ s.input_weights, row.length = s.activation_thresholds.length)

/-- The validator's range invariant, stated as a proposition: thresholds,
signal factors and matrix entries in `[0,1)`, delays in `[0,10)`. -/
def RangeInv (s : MindData) : Prop :=
  (∀ x ∈ s.activation_thresholds, 0 ≤ x ∧ x < 1) ∧
  (∀ x ∈ s.reactivation_delays, 0 ≤ x ∧ x < 10) ∧
  (∀ x ∈ s.signal_map, 0 ≤ x ∧ x < 1) ∧
  (∀ row ∈ s.outputs_weights, ∀ x ∈ row, 0 ≤ x ∧ x < 1) ∧
  (∀ row ∈ s.input_weights, ∀ x ∈ row, 0 ≤ x ∧ x < 1)

/-- The validator's diagonal invariant, stated as a proposition: both
matrices have an exactly-zero diagonal. -/
def DiagInv (s : MindData) : Prop :=
  (∀ i < s.outputs_weights.length, (s.outputs_weights.getD i []).getD i 1 = 0) ∧
  (∀ i < s.input_weights.length, (s.input_weights.getD i []).getD i 1 = 0)

theorem inUnit_iff (x : ℚ) : inUnit x = true ↔ 0 ≤ x ∧ x < 1 := by
  simp [inUnit]

theorem inDelay_iff (x : ℚ) : inDelay x = true ↔ 0 ≤ x ∧ x < 10 := by
  simp [inDelay]

theorem shapeOkB_iff (s : MindData) : shapeOkB s = true ↔ ShapeInv s := by
  simp [shapeOkB, ShapeInv, List.all_eq_true, and_assoc]

theorem rangeOkB_iff (s : MindData) : rangeOkB s = true ↔ RangeInv s := by
  simp [rangeOkB, RangeInv, List.all_eq_true, inUnit_iff, inDelay_iff, and_assoc]

theorem diagZeroB_iff (m : List (List ℚ)) :
    diagZeroB m = true ↔ ∀ i < m.length, (m.getD i []).getD i 1 = 0 := by
  simp [diagZeroB, List.all_eq_true, List.mem_range]

theorem diagOkB_iff (s : MindData) : diagOkB s = true ↔ DiagInv s := by
  simp [diagOkB, DiagInv, diagZeroB_iff]

theorem validate_ok_iff (s : MindData) :
    mind_validate s = Except.ok () ↔
      (shapeOkB s = true ∧ rangeOkB s = true ∧ diagOkB s = true) := by
  unfold mind_validate
  cases h1 : shapeOkB s <;> cases h2 : rangeOkB s <;> cases h3 : diagOkB s <;> simp

theorem validate_ok_inv (s : MindData) :
    mind_validate s = Except.ok () ↔ (ShapeInv s ∧ RangeInv s ∧ DiagInv s) := by
  rw [validate_ok_iff, shapeOkB_iff, rangeOkB_iff, diagOkB_iff]

theorem zipWith_qmax_nonneg :
    ∀ (xs ys : List ℚ), ∀ x ∈ List.zipWith (fun a p => qmax 0 (qadd a p)) xs ys, (0:ℚ) ≤ x
  | [], _, x, hx => by simp at hx
  | _ :: _, [], x, hx => by simp at hx
  | a :: as, b :: bs, x, hx => by
    rw [List.zipWith_cons_cons, List.mem_cons] at hx
    rcases hx with h | h
    · rw [h, qmax_eq]
      exact le_max_left 0 _
    · exact zipWith_qmax_nonneg as bs x h

theorem shapeInv_step (s : MindData) (h : ShapeInv s) : ShapeInv (mind_step s) := by
  obtain ⟨h1, h2, h3, h4, h5, h6, h7, h8⟩ := h
  refine ⟨by simp [mind_step, h1], by simp [mind_step, h2], by simp [mind_step, h3], ?_,
    by simp [mind_step, h5], by simpa [mind_step] using h6,
    by simp [mind_step, h7], by simpa [mind_step] using h8⟩
  simp [mind_step, aggInput, outputProp, matVec, List.length_zipWith, h5, h7]

theorem validate_step (s : MindData) (hv : mind_validate s = Except.ok ()) :
    mind_validate (mind_step s) = Except.ok () := by
  rw [validate_ok_iff] at hv ⊢
  obtain ⟨hs, hr, hd⟩ := hv
  rw [shapeOkB_iff] at hs
  have hs' : shapeOkB (mind_step s) = true := (shapeOkB_iff _).mpr (shapeInv_step s hs)
  exact ⟨hs', hr, hd⟩

/-- All entries of `neural_activity` are non-negative. -/
def ActivityNonneg (s : MindData) : Prop := ∀ x ∈ s.neural_activity, 0 ≤ x

/-- Claim C2: for every `MindData` on which `mind_validate` succeeds,
`mind_step` completes (it is a total function here) and the resulting state
again passes every validator check — shapes, ranges and zero diagonals —
and its `neural_activity` is non-negative (and, over `ℚ`, automatically
finite). -/
theorem C2_step_preserves_invariants (s : MindData) (hv : mind_validate s = Except.ok ()) :
    mind_validate (mind_step s) = Except.ok () ∧ ActivityNonneg (mind_step s) :=
  ⟨validate_step s hv, fun x hx => zipWith_qmax_nonneg (aggInput s) (outputProp s) x hx⟩

/-- Witness for C2 at a concrete one-neuron validated state. -/
theorem C2_step_preserves_invariants_witness :
    mind_validate (mind_step (MindData.mk 0 [mkRat 1 2] [[0]] [[0]] [3] [0] [0] [mkRat 3 5]))
        = Except.ok () ∧
      ActivityNonneg (mind_step (MindData.mk 0 [mkRat 1 2] [[0]] [[0]] [3] [0] [0] [mkRat 3 5])) :=
  C2_step_preserves_invariants _ (by decide)

/-- Claim C5: every call to `mind_step` increments the tick counter by
exactly one, regardless of the stored values; after `n` calls the tick has
increased by exactly `n` and in particular never decreases (it is a `Nat`,
so it is also non-negative). -/
theorem C5_tick_monotone (s : MindData) (n : Nat) :
    (mind_step s).tick = s.tick + 1 ∧ (stepN n s).tick = s.tick + n ∧
      s.tick ≤ (stepN n s).tick := by
  have h : ∀ m : Nat, (stepN m s).tick = s.tick + m := by
    intro m
    induction m with
    | zero => rfl
    | succ k ih => rw [stepN, step_tick, ih, Nat.add_assoc]
  exact ⟨rfl, h n, by rw [h n]; exact Nat.le_add_right _ _⟩

/-- Claim C9: `mind_step` never modifies `activation_thresholds`,
`reactivation_delays`, `signal_map`, `outputs_weights` or `input_weights`;
only `next_activations`, `neural_activity` and `tick` change. -/
theorem C9_step_frame (s : MindData) :
    (mind_step s).activation_thresholds = s.activation_thresholds ∧
    (mind_step s).reactivation_delays = s.reactivation_delays ∧
    (mind_step s).signal_map = s.signal_map ∧
    (mind_step s).outputs_weights = s.outputs_weights ∧
    (mind_step s).input_weights = s.input_weights :=
  ⟨rfl, rfl, rfl, rfl, rfl⟩

/-- A validated two-neuron state on which neuron 0 fires even though its
aggregated input alone (matrix-vector product, zero diagonal) is below its
threshold: the firing potential also carries the neuron's own activity. -/
def cexC1 : MindData :=
  MindData.mk 0 [mkRat 1 2, mkRat 1 2] [[0, mkRat 1 2], [mkRat 1 2, 0]]
    [[0, mkRat 1 2], [mkRat 1 2, 0]] [1, 1] [0, 0] [mkRat 1 2, mkRat 1 2] [mkRat 3 5, 0]

/-- Claim C1 (counterexample): in the validated state `cexC1`, neuron 0 is
placed in the fired set although its aggregated input — the matrix-vector
product of `input_weights` with `neural_activity` — is strictly below its
activation threshold; so firing is not equivalent to the aggregated input
alone meeting the threshold. -/
theorem C1_counterexample :
    mind_validate cexC1 = Except.ok () ∧ fired cexC1 0 = true ∧
      ¬ (cexC1.activation_thresholds.getD 0 1 ≤ (aggInput cexC1).getD 0 0) := by
  refine ⟨by decide, by decide, by decide⟩

/-- Claim C1 (amended): for every validated state and in-range neuron `i`,
one `mind_step` call places neuron `i` in the fired set iff
`next_activations[i] <= 0` and the aggregated input of neuron `i` (the
matrix-vector product of `input_weights` with the `neural_activity` vector
as it was at the start of the call) COMBINED WITH the neuron's own current
`neural_activity[i]` meets or exceeds `activation_thresholds[i]`. -/
theorem C1_firing_rule (s : MindData) (hv : mind_validate s = Except.ok ()) (i : Nat)
    (hi : i < s.activation_thresholds.length) :
    fired s i = true ↔
      (s.next_activations.getD i 0 ≤ 0 ∧
        s.activation_thresholds.getD i 1 ≤
          (aggInput s).getD i 0 + s.neural_activity.getD i 0) := by
  have hsh := ((validate_ok_inv s).mp hv).1
  have hiw : i < s.input_weights.length := by rw [hsh.2.2.2.2.2.2.1]; exact hi
  have hagg : (aggInput s).getD i 0 = dot (s.input_weights.getD i []) s.neural_activity :=
    getD_map_row _ _ 0 [] hiw
  rw [hagg]
  unfold fired eligible potential
  rw [qadd_eq, Bool.and_eq_true, decide_eq_true_eq, decide_eq_true_eq]

/-- Witness for the amended C1 at the concrete state `cexC1`. -/
theorem C1_firing_rule_witness : fired cexC1 0 = true :=
  (C1_firing_rule cexC1 (by decide) 0 (by decide)).mpr
    ⟨by decide, by rw [← qadd_eq]; decide⟩

/-- The concrete two-neuron scenario state from spec section 8
(`0.6 = 3/5`, `0.5 = 1/2`). -/
def scenarioState : MindData :=
  MindData.mk 0 [mkRat 1 2, mkRat 1 2] [[0, 1], [1, 0]] [[0, 1], [1, 0]] [1, 1] [0, 0] [1, 1]
    [mkRat 3 5, 0]

/-- Claim C4: in the concrete scenario state, the aggregated values match the
documented matrix-vector formula (`aggInput = [0, 3/5]`), neuron 0 fires
(its potential `3/5 = 0.6` meets the threshold `1/2 = 0.5`) and enters
refractory with `next_activations[0] = 1`, and neuron 1's new activity is
its aggregated input `3/5` plus the propagated contribution
`outputs_weights[1][0] * signal_map[0] = 1`. -/
theorem C4_concrete_scenario :
    aggInput scenarioState = [0, mkRat 3 5] ∧
    fired scenarioState 0 = true ∧
    mkRat 1 2 ≤ potential scenarioState 0 ∧
    (mind_step scenarioState).next_activations.getD 0 0 = 1 ∧
    (outputProp scenarioState).getD 1 0 =
      qmul ((scenarioState.outputs_weights.getD 1 []).getD 0 0) (scenarioState.signal_map.getD 0 0) ∧
    (outputProp scenarioState).getD 1 0 = 1 ∧
    (mind_step scenarioState).neural_activity.getD 1 0 = qadd (mkRat 3 5) 1 := by
  refine ⟨by decide, by decide, by decide, by decide, by decide, by decide, by decide⟩

/-- Claim C6: a fired neuron's countdown is set to exactly
`reactivation_delays[i]` — even when its countdown was already at `0` — and
with `reactivation_delays[i] = 0` the neuron is eligible again on the very
next tick. -/
theorem C6_zero_delay (s : MindData) (hv : mind_validate s = Except.ok ()) (i : Nat)
    (hi : i < s.activation_thresholds.length) (hf : fired s i = true) :
    (mind_step s).next_activations.getD i 0 = s.reactivation_delays.getD i 0 ∧
      (s.reactivation_delays.getD i 0 = 0 → eligible (mind_step s) i = true) := by
  have hsh := ((validate_ok_inv s).mp hv).1
  have hn : i < s.next_activations.length := by rw [hsh.2.2.1]; exact hi
  have h1 : (mind_step s).next_activations.getD i 0 = s.reactivation_delays.getD i 0 := by
    rw [step_next_getD s hn, nextRefractory_of_fired s i hf]
  refine ⟨h1, fun h0 => ?_⟩
  unfold eligible
  rw [h1, h0]
  decide

/-- A one-neuron validated state with `reactivation_delays = [0]` whose
neuron fires immediately. -/
def zeroDelayState : MindData :=
  MindData.mk 0 [mkRat 1 2] [[0]] [[0]] [0] [0] [0] [mkRat 3 5]

/-- Witness for C6 at the concrete state `zeroDelayState`. -/
theorem C6_zero_delay_witness :
    (mind_step zeroDelayState).next_activations.getD 0 0 =
        zeroDelayState.reactivation_delays.getD 0 0 ∧
      (zeroDelayState.reactivation_delays.getD 0 0 = 0 →
        eligible (mind_step zeroDelayState) 0 = true) :=
  C6_zero_delay zeroDelayState (by decide) 0 (by decide) (by decide)

/-- Claim C3: a neuron with `reactivation_delays[i] = 3` that fires at tick T
has countdown values `3, 2, 1` after the next three calls (so it is
ineligible at ticks T+1, T+2 and T+3) and countdown `0` after the fourth
call (eligible again at tick T+4); no reset can occur in between because an
ineligible neuron cannot fire. -/
theorem C3_refractory_three (s : MindData) (hv : mind_validate s = Except.ok ()) (i : Nat)
    (hi : i < s.activation_thresholds.length)
    (hd : s.reactivation_delays.getD i 0 = 3)
    (hf : fired s i = true) :
    (stepN 1 s).next_activations.getD i 0 = 3 ∧
    (stepN 2 s).next_activations.getD i 0 = 2 ∧
    (stepN 3 s).next_activations.getD i 0 = 1 ∧
    (stepN 4 s).next_activations.getD i 0 = 0 ∧
    eligible (stepN 1 s) i = false ∧ eligible (stepN 2 s) i = false ∧
    eligible (stepN 3 s) i = false ∧ eligible (stepN 4 s) i = true := by
  have hsh := ((validate_ok_inv s).mp hv).1
  have hn0 : i < s.next_activations.length := by rw [hsh.2.2.1]; exact hi
  have hn1 : i < (mind_step s).next_activations.length := by
    rw [step_next_length]; exact hn0
  have hn2 : i < (mind_step (mind_step s)).next_activations.length := by
    rw [step_next_length]; exact hn1
  have hn3 : i < (mind_step (mind_step (mind_step s))).next_activations.length := by
    rw [step_next_length]; exact hn2
  have v1 : (mind_step s).next_activations.getD i 0 = 3 := by
    rw [step_next_getD s hn0, nextRefractory_of_fired s i hf, hd]
  have f1 : fired (mind_step s) i = false :=
    fired_of_pos_next _ i (by rw [v1]; norm_num)
  have v2 : (mind_step (mind_step s)).next_activations.getD i 0 = 2 := by
    rw [step_next_getD _ hn1, nextRefractory_of_pos _ i f1 (by rw [v1]; norm_num), v1]
    norm_num
  have f2 : fired (mind_step (mind_step s)) i = false :=
    fired_of_pos_next _ i (by rw [v2]; norm_num)
  have v3 : (mind_step (mind_step (mind_step s))).next_activations.getD i 0 = 1 := by
    rw [step_next_getD _ hn2, nextRefractory_of_pos _ i f2 (by rw [v2]; norm_num), v2]
    norm_num
  have f3 : fired (mind_step (mind_step (mind_step s))) i = false :=
    fired_of_pos_next _ i (by rw [v3]; norm_num)
  have v4 : (mind_step (mind_step (mind_step (mind_step s)))).next_activations.getD i 0 = 0 := by
    rw [step_next_getD _ hn3, nextRefractory_of_pos _ i f3 (by rw [v3]; norm_num), v3]
    norm_num
  have e1 : eligible (mind_step s) i = false := by
    unfold eligible; rw [v1]; decide
  have e2 : eligible (mind_step (mind_step s)) i = false := by
    unfold eligible; rw [v2]; decide
  have e3 : eligible (mind_step (mind_step (mind_step s))) i = false := by
    unfold eligible; rw [v3]; decide
  have e4 : eligible (mind_step (mind_step (mind_step (mind_step s)))) i = true := by
    unfold eligible; rw [v4]; decide
  exact ⟨v1, v2, v3, v4, e1, e2, e3, e4⟩

/-- A one-neuron validated state with `reactivation_delays = [3]` whose
neuron fires immediately. -/
def delayThreeState : MindData :=
  MindData.mk 0 [mkRat 1 2] [[0]] [[0]] [3] [0] [0] [mkRat 3 5]

/-- Witness for C3 at the concrete state `delayThreeState`. -/
theorem C3_refractory_three_witness :
    (stepN 1 delayThreeState).next_activations.getD 0 0 = 3 ∧
    (stepN 2 delayThreeState).next_activations.getD 0 0 = 2 ∧
    (stepN 3 delayThreeState).next_activations.getD 0 0 = 1 ∧
    (stepN 4 delayThreeState).next_activations.getD 0 0 = 0 ∧
    eligible (stepN 1 delayThreeState) 0 = false ∧
    eligible (stepN 2 delayThreeState) 0 = false ∧
    eligible (stepN 3 delayThreeState) 0 = false ∧
    eligible (stepN 4 delayThreeState) 0 = true :=
  C3_refractory_three delayThreeState (by decide) 0 (by decide) (by decide) (by decide)

/-- Every entry of the vector is zero. -/
def AllZeroVec (v : List ℚ) : Prop := ∀ x ∈ v, x = 0

/-- Every entry of the matrix is zero. -/
def AllZeroMat (m : List (List ℚ)) : Prop := ∀ row ∈ m, ∀ x ∈ row, x = 0

instance (v : List ℚ) : Decidable (AllZeroVec v) := by
  unfold AllZeroVec; infer_instance

instance (m : List (List ℚ)) : Decidable (AllZeroMat m) := by
  unfold AllZeroMat; infer_instance

theorem dot_zero_right : ∀ (xs ys : List ℚ), (∀ y ∈ ys, y = 0) → dot xs ys = 0
  | [], _, _ => rfl
  | _ :: _, [], _ => rfl
  | a :: as, b :: bs, h => by
    have hb : b = 0 := h b (List.mem_cons_self b bs)
    have hr : dot as bs = 0 :=
      dot_zero_right as bs (fun y hy => h y (List.mem_cons_of_mem b hy))
    show qadd (qmul a b) (dot as bs) = 0
    rw [hb, hr, qmul_eq, mul_zero, qadd_eq, add_zero]

theorem dot_zero_left : ∀ (xs ys : List ℚ), (∀ x ∈ xs, x = 0) → dot xs ys = 0
  | [], _, _ => rfl
  | _ :: _, [], _ => rfl
  | a :: as, b :: bs, h => by
    have ha : a = 0 := h a (List.mem_cons_self a as)
    have hr : dot as bs = 0 :=
      dot_zero_left as bs (fun y hy => h y (List.mem_cons_of_mem a hy))
    show qadd (qmul a b) (dot as bs) = 0
    rw [ha, hr, qmul_eq, zero_mul, qadd_eq, add_zero]

theorem matVec_zero_left (m : List (List ℚ)) (hm : AllZeroMat m) (v : List ℚ) :
    ∀ x ∈ matVec m v, x = 0 := by
  intro x hx
  rw [matVec, List.mem_map] at hx
  obtain ⟨row, hrow, rfl⟩ := hx
  exact dot_zero_left row v (hm row hrow)

theorem zipWith_qmax_zero :
    ∀ (xs ys : List ℚ), (∀ x ∈ xs, x = 0) → (∀ y ∈ ys, y = 0) →
      ∀ z ∈ List.zipWith (fun a p => qmax 0 (qadd a p)) xs ys, z = 0
  | [], _, _, _, z, hz => by simp at hz
  | _ :: _, [], _, _, z, hz => by simp at hz
  | a :: as, b :: bs, hx, hy, z, hz => by
    rw [List.zipWith_cons_cons, List.mem_cons] at hz
    rcases hz with h | h
    · have ha : a = 0 := hx a (List.mem_cons_self a as)
      have hb : b = 0 := hy b (List.mem_cons_self b bs)
      rw [h, ha, hb, qadd_eq, add_zero, qmax_eq, max_self]
    · exact zipWith_qmax_zero as bs (fun x hx' => hx x (List.mem_cons_of_mem a hx'))
        (fun y hy' => hy y (List.mem_cons_of_mem b hy')) z h

theorem getD_zero_of_allZero : ∀ (v : List ℚ), AllZeroVec v → ∀ i, v.getD i 0 = 0
  | [], _, _ => rfl
  | a :: as, h, 0 => h a (List.mem_cons_self a as)
  | a :: as, h, i + 1 =>
    getD_zero_of_allZero as (fun x hx => h x (List.mem_cons_of_mem a hx)) i

theorem getD_mem_of_lt {α : Type} (v : List α) (i : Nat) (d : α) (h : i < v.length) :
    v.getD i d ∈ v := by
  rw [List.getD_eq_getElem?_getD, List.getElem?_eq_getElem h]
  exact List.getElem_mem h

theorem fired_false_of_zero (s : MindData) (i : Nat)
    (hiw : AllZeroMat s.input_weights) (hact : AllZeroVec s.neural_activity)
    (hth : ∀ t ∈ s.activation_thresholds, 0 < t)
    (hi : i < s.activation_thresholds.length) :
    fired s i = false := by
  have hrow : ∀ x ∈ s.input_weights.getD i [], x = 0 := by
    intro x hx
    rcases Nat.lt_or_ge i s.input_weights.length with hlt | hge
    · exact hiw _ (getD_mem_of_lt _ i [] hlt) x hx
    · rw [List.getD_eq_getElem?_getD, List.getElem?_eq_none (by omega)] at hx
      simp at hx
  have hpot : potential s i = 0 := by
    unfold potential
    rw [dot_zero_right _ _ hact, getD_zero_of_allZero _ hact i, qadd_eq, add_zero]
  have hth0 : 0 < s.activation_thresholds.getD i 1 :=
    hth _ (getD_mem_of_lt _ i 1 hi)
  have hdec : decide (s.activation_thresholds.getD i 1 ≤ potential s i) = false :=
    decide_eq_false (by rw [hpot]; exact not_le.mpr hth0)
  unfold fired
  rw [hdec, Bool.and_false]

/-- A validated one-neuron state with zero weights and zero activity but a
ZERO activation threshold: its potential `0` meets the threshold `0`, so it
fires at the very first step, refuting the unrestricted no-op claim. -/
def zeroThresholdState : MindData :=
  MindData.mk 0 [0] [[0]] [[0]] [0] [0] [0] [0]

/-- Claim C7 (counterexample): `zeroThresholdState` is validated, has
all-zero weight matrices and all-zero activity, yet its neuron fires in the
first `mind_step` call — a threshold of exactly `0` (legal in `[0,1)`) is
met by a zero aggregated signal. -/
theorem C7_counterexample :
    mind_validate zeroThresholdState = Except.ok () ∧
    AllZeroMat zeroThresholdState.input_weights ∧
    AllZeroMat zeroThresholdState.outputs_weights ∧
    AllZeroVec zeroThresholdState.neural_activity ∧
    fired zeroThresholdState 0 = true := by
  refine ⟨by decide, by decide, by decide, by decide, by decide⟩

/-- Claim C7 (amended): for every validated state with all-zero weight
matrices, all-zero activity and STRICTLY POSITIVE activation thresholds, no
neuron ever fires over any number of `mind_step` calls, and the activity
stays identically zero. -/
theorem C7_quiet_network (s : MindData) (_hv : mind_validate s = Except.ok ())
    (hiw : AllZeroMat s.input_weights) (how : AllZeroMat s.outputs_weights)
    (hact : AllZeroVec s.neural_activity)
    (hth : ∀ t ∈ s.activation_thresholds, 0 < t) :
    ∀ n i, i < s.activation_thresholds.length →
      fired (stepN n s) i = false ∧ AllZeroVec (stepN n s).neural_activity := by
  have hizw : ∀ n, AllZeroMat (stepN n s).input_weights := fun n => by
    rw [stepN_inputs]; exact hiw
  have hozw : ∀ n, AllZeroMat (stepN n s).outputs_weights := fun n => by
    rw [stepN_outputs]; exact how
  have hzero : ∀ n, AllZeroVec (stepN n s).neural_activity := by
    intro n
    cases n with
    | zero => exact hact
    | succ k =>
      intro x hx
      exact zipWith_qmax_zero _ _ (matVec_zero_left _ (hizw k) _)
        (matVec_zero_left _ (hozw k) _) x hx
  intro n i hi
  refine ⟨?_, hzero n⟩
  exact fired_false_of_zero (stepN n s) i (hizw n) (hzero n)
    (by rw [stepN_thresholds]; exact hth) (by rw [stepN_thresholds]; exact hi)

/-- A validated one-neuron state with zero weights, zero activity and a
positive threshold. -/
def quietState : MindData :=
  MindData.mk 0 [mkRat 1 2] [[0]] [[0]] [1] [0] [0] [0]

/-- Witness for the amended C7 at `quietState`, two ticks in. -/
theorem C7_quiet_network_witness :
    fired (stepN 2 quietState) 0 = false ∧ AllZeroVec (stepN 2 quietState).neural_activity :=
  C7_quiet_network quietState (by decide) (by decide) (by decide) (by decide)
    (by decide) 2 0 (by decide)

instance (s : MindData) : Decidable (ShapeInv s) := by
  unfold ShapeInv; infer_instance

instance (s : MindData) : Decidable (RangeInv s) := by
  unfold RangeInv; infer_instance

instance (s : MindData) : Decidable (DiagInv s) := by
  unfold DiagInv; infer_instance

theorem validate_shape_error (s : MindData) (h : shapeOkB s = false) :
    mind_validate s = Except.error ValidationError.ShapeMismatch := by
  unfold mind_validate
  rw [h, if_pos rfl]

theorem validate_range_error (s : MindData) (hs : shapeOkB s = true)
    (h : rangeOkB s = false) :
    mind_validate s = Except.error ValidationError.OutOfRange := by
  unfold mind_validate
  rw [hs, h, if_neg (by simp), if_pos rfl]

theorem validate_diag_error (s : MindData) (hs : shapeOkB s = true)
    (hr : rangeOkB s = true) (h : diagOkB s = false) :
    mind_validate s = Except.error ValidationError.NonZeroSelfWeight := by
  unfold mind_validate
  rw [hs, hr, h, if_neg (by simp), if_neg (by simp), if_pos rfl]

/-- Claim C8: `mind_validate` is a pure function of the state (it returns a
result and touches nothing, so it cannot mutate); it succeeds exactly on
states satisfying the shape, range and diagonal invariants, and otherwise
reports exactly one violation, chosen by checking shapes first, then
ranges, then diagonals, short-circuiting at the first failing group. -/
theorem C8_validator_contract (s : MindData) :
    (mind_validate s = Except.ok () ↔ (ShapeInv s ∧ RangeInv s ∧ DiagInv s)) ∧
    (¬ ShapeInv s → mind_validate s = Except.error ValidationError.ShapeMismatch) ∧
    (ShapeInv s → ¬ RangeInv s → mind_validate s = Except.error ValidationError.OutOfRange) ∧
    (ShapeInv s → RangeInv s → ¬ DiagInv s →
      mind_validate s = Except.error ValidationError.NonZeroSelfWeight) := by
  refine ⟨validate_ok_inv s, ?_, ?_, ?_⟩
  · intro h
    refine validate_shape_error s ?_
    cases hb : shapeOkB s
    · rfl
    · exact absurd ((shapeOkB_iff s).mp hb) h
  · intro hs h
    refine validate_range_error s ((shapeOkB_iff s).mpr hs) ?_
    cases hb : rangeOkB s
    · rfl
    · exact absurd ((rangeOkB_iff s).mp hb) h
  · intro hs hr h
    refine validate_diag_error s ((shapeOkB_iff s).mpr hs) ((rangeOkB_iff s).mpr hr) ?_
    cases hb : diagOkB s
    · rfl
    · exact absurd ((diagOkB_iff s).mp hb) h

/-- A state whose vector lengths disagree (one threshold, no delays). -/
def badShapeState : MindData :=
  MindData.mk 0 [0] [] [] [] [] [] []

/-- Witness for C8: on the shape-broken state `badShapeState` the validator
reports exactly `ShapeMismatch`. -/
theorem C8_validator_contract_witness :
    mind_validate badShapeState = Except.error ValidationError.ShapeMismatch :=
  (C8_validator_contract badShapeState).2.1 (by decide)

/-- The network size fixed in `src/main.cpp`:
`constexpr std::size_t neurons = 10*10`. -/
def neurons : Nat := 100

/-- The diagonal-zeroing loop of the initializer lambdas in `src/main.cpp`
(`arr(neuron_idx, neuron_idx) = 0.0f`); `k` is the index of the first row of
the remaining suffix. -/
def zeroDiagAux : Nat → List (List ℚ) → List (List ℚ)
  | _, [] => []
  | k, row :: rest => row.set k 0 :: zeroDiagAux (k + 1) rest

/-- Zero the diagonal of a matrix, as both initializer lambdas in
`src/main.cpp` do after drawing random entries. -/
def zeroDiag (m : List (List ℚ)) : List (List ℚ) := zeroDiagAux 0 m

/-- The initial `MindData` constructed in `main` (`src/main.cpp`): tick `0`,
randomized `activation_thresholds`, both weight matrices randomized then
diagonal-zeroed, randomized `reactivation_delays` and `signal_map`, and
all-zero `next_activations` and `neural_activity`. The random draws are
passed as parameters — the model has no randomness; `xt::random::rand`
samples the half-open ranges `[0,1)` and `[0,10)`. -/
def mkMind (th : List ℚ) (ow iw : List (List ℚ)) (rd sm : List ℚ) : MindData :=
  MindData.mk 0 th (zeroDiag ow) (zeroDiag iw) rd (List.replicate neurons 0) sm
    (List.replicate neurons 0)

theorem zeroDiagAux_length : ∀ (k : Nat) (m : List (List ℚ)),
    (zeroDiagAux k m).length = m.length
  | _, [] => rfl
  | k, row :: rest => by
    show (row.set k 0 :: zeroDiagAux (k + 1) rest).length = (row :: rest).length
    simp [zeroDiagAux_length (k + 1) rest]

theorem zeroDiagAux_getD : ∀ (m : List (List ℚ)) (k i : Nat), i < m.length →
    (zeroDiagAux k m).getD i [] = (m.getD i []).set (k + i) 0
  | [], _, i, h => absurd h (by simp)
  | row :: rest, k, 0, _ => by
    show row.set k 0 = row.set (k + 0) 0
    rw [Nat.add_zero]
  | row :: rest, k, i + 1, h => by
    show (zeroDiagAux (k + 1) rest).getD i [] = (rest.getD i []).set (k + (i + 1)) 0
    rw [zeroDiagAux_getD rest (k + 1) i (by simpa using Nat.lt_of_succ_lt_succ h)]
    congr 1
    omega

theorem zeroDiagAux_rows : ∀ (k : Nat) (m : List (List ℚ)) (P : ℚ → Prop), P 0 →
    (∀ row ∈ m, ∀ x ∈ row, P x) → ∀ row ∈ zeroDiagAux k m, ∀ x ∈ row, P x
  | _, [], _, _, _, row, hrow => absurd hrow (by simp [zeroDiagAux])
  | k, r :: rest, P, h0, hm, row, hrow => by
    rw [show zeroDiagAux k (r :: rest) = r.set k 0 :: zeroDiagAux (k + 1) rest from rfl,
      List.mem_cons] at hrow
    rcases hrow with h | h
    · intro x hx
      rcases List.mem_or_eq_of_mem_set (h ▸ hx) with hx' | hx'
      · exact hm r (List.mem_cons_self r rest) x hx'
      · rw [hx']; exact h0
    · exact zeroDiagAux_rows (k + 1) rest P h0
        (fun row' hr => hm row' (List.mem_cons_of_mem r hr)) row h

theorem zeroDiagAux_rowlen : ∀ (k : Nat) (m : List (List ℚ)) (n : Nat),
    (∀ row ∈ m, row.length = n) → ∀ row ∈ zeroDiagAux k m, row.length = n
  | _, [], _, _, row, hrow => absurd hrow (by simp [zeroDiagAux])
  | k, r :: rest, n, hm, row, hrow => by
    rw [show zeroDiagAux k (r :: rest) = r.set k 0 :: zeroDiagAux (k + 1) rest from rfl,
      List.mem_cons] at hrow
    rcases hrow with h | h
    · rw [h, List.length_set]
      exact hm r (List.mem_cons_self r rest)
    · exact zeroDiagAux_rowlen (k + 1) rest n
        (fun row' hr => hm row' (List.mem_cons_of_mem r hr)) row h

theorem getD_set_self : ∀ (l : List ℚ) (i : Nat) (a d : ℚ), i < l.length →
    (l.set i a).getD i d = a
  | [], _, _, _, h => absurd h (by simp)
  | _ :: _, 0, _, _, _ => rfl
  | _ :: xs, i + 1, a, d, h => getD_set_self xs i a d (Nat.lt_of_succ_lt_succ h)

/-- Modelled from the spec: neuron `i` is Idle — eligible and strictly below
its activation threshold (the per-neuron state machine of spec section 4.2). -/
def Idle (s : MindData) (i : Nat) : Prop :=
  eligible s i = true ∧ potential s i < s.activation_thresholds.getD i 1

instance (s : MindData) (i : Nat) : Decidable (Idle s i) := by
  unfold Idle; infer_instance

/-- Every neuron is eligible (`next_activations[i] <= 0` at every index). -/
def AllEligible (s : MindData) : Prop := ∀ i, eligible s i = true

/-- Every in-range neuron whose threshold is strictly positive is Idle. -/
def IdleWherePos (s : MindData) : Prop :=
  ∀ i < s.activation_thresholds.length,
    0 < s.activation_thresholds.getD i 1 → Idle s i

/-- All-zero vector draw: a legal sample of both half-open ranges used in
`main` (`0 ∈ [0,1)` and `0 ∈ [0,10)`). -/
def zeroVecDraw : List ℚ := List.replicate neurons 0

/-- All-zero matrix draw: a legal sample of `[0,1)` entries. -/
def zeroMatDraw : List (List ℚ) := List.replicate neurons zeroVecDraw

/-- Claim C10 (counterexample): with the all-zero random draw — every
sampled value inside its documented half-open range — the state `main`
constructs has neuron 0 NOT Idle: its threshold is `0`, which the zero
potential already meets (firing uses `>=`), so the neuron is at threshold
rather than below it. -/
theorem C10_counterexample :
    (∀ x ∈ zeroVecDraw, 0 ≤ x ∧ x < 1) ∧
    (∀ x ∈ zeroVecDraw, 0 ≤ x ∧ x < 10) ∧
    (∀ row ∈ zeroMatDraw, ∀ x ∈ row, 0 ≤ x ∧ x < 1) ∧
    ¬ Idle (mkMind zeroVecDraw zeroMatDraw zeroMatDraw zeroVecDraw zeroVecDraw) 0 := by
  refine ⟨?_, ?_, ?_, ?_⟩
  · intro x hx; rw [List.eq_of_mem_replicate hx]; norm_num
  · intro x hx; rw [List.eq_of_mem_replicate hx]; norm_num
  · intro row hrow x hx
    rw [List.eq_of_mem_replicate hrow] at hx
    rw [List.eq_of_mem_replicate hx]; norm_num
  · intro hidle
    have hact : AllZeroVec (mkMind zeroVecDraw zeroMatDraw zeroMatDraw zeroVecDraw
        zeroVecDraw).neural_activity := fun x hx => List.eq_of_mem_replicate hx
    have hpot : potential (mkMind zeroVecDraw zeroMatDraw zeroMatDraw zeroVecDraw
        zeroVecDraw) 0 = 0 := by
      unfold potential
      rw [dot_zero_right _ _ hact, getD_zero_of_allZero _ hact 0, qadd_eq, add_zero]
    have hth : (mkMind zeroVecDraw zeroMatDraw zeroMatDraw zeroVecDraw
        zeroVecDraw).activation_thresholds.getD 0 1 = 0 := by decide
    unfold Idle at hidle
    rw [hpot, hth] at hidle
    exact absurd hidle.2 (lt_irrefl 0)

/-- Claim C10 (amended): for any draws of the documented shapes with all
sampled values inside their half-open documented ranges, the initial
`MindData` built by `main` has `tick = 0`, passes the validator (so both
matrices are N x N with zero diagonal and every field is in range), has
all-zero `next_activations` and `neural_activity`, and every neuron begins
eligible; every neuron whose sampled threshold is strictly positive begins
Idle (a threshold of exactly `0` is possible in `[0,1)` and such a neuron
starts at threshold instead of below it). -/
theorem C10_initial_state (th : List ℚ) (ow iw : List (List ℚ)) (rd sm : List ℚ)
    (hthl : th.length = neurons) (hrdl : rd.length = neurons) (hsml : sm.length = neurons)
    (howl : ow.length = neurons) (howr : ∀ row ∈ ow, row.length = neurons)
    (hiwl : iw.length = neurons) (hiwr : ∀ row ∈ iw, row.length = neurons)
    (hth : ∀ x ∈ th, 0 ≤ x ∧ x < 1) (hrd : ∀ x ∈ rd, 0 ≤ x ∧ x < 10)
    (hsm : ∀ x ∈ sm, 0 ≤ x ∧ x < 1)
    (how : ∀ row ∈ ow, ∀ x ∈ row, 0 ≤ x ∧ x < 1)
    (hiw : ∀ row ∈ iw, ∀ x ∈ row, 0 ≤ x ∧ x < 1) :
    (mkMind th ow iw rd sm).tick = 0 ∧
    mind_validate (mkMind th ow iw rd sm) = Except.ok () ∧
    DiagInv (mkMind th ow iw rd sm) ∧
    AllZeroVec (mkMind th ow iw rd sm).next_activations ∧
    AllZeroVec (mkMind th ow iw rd sm).neural_activity ∧
    AllEligible (mkMind th ow iw rd sm) ∧
    IdleWherePos (mkMind th ow iw rd sm) := by
  have hnext : AllZeroVec (mkMind th ow iw rd sm).next_activations :=
    fun x hx => List.eq_of_mem_replicate hx
  have hact : AllZeroVec (mkMind th ow iw rd sm).neural_activity :=
    fun x hx => List.eq_of_mem_replicate hx
  have hshape : ShapeInv (mkMind th ow iw rd sm) := by
    refine ⟨?_, ?_, ?_, ?_, ?_, ?_, ?_, ?_⟩
    · show rd.length = th.length; rw [hrdl, hthl]
    · show sm.length = th.length; rw [hsml, hthl]
    · show (List.replicate neurons (0:ℚ)).length = th.length
      rw [List.length_replicate, hthl]
    · show (List.replicate neurons (0:ℚ)).length = th.length
      rw [List.length_replicate, hthl]
    · show (zeroDiag ow).length = th.length
      rw [zeroDiag, zeroDiagAux_length, howl, hthl]
    · intro row hrow
      show row.length = th.length
      rw [hthl]
      exact zeroDiagAux_rowlen 0 ow neurons howr row hrow
    · show (zeroDiag iw).length = th.length
      rw [zeroDiag, zeroDiagAux_length, hiwl, hthl]
    · intro row hrow
      show row.length = th.length
      rw [hthl]
      exact zeroDiagAux_rowlen 0 iw neurons hiwr row hrow
  have hrange : RangeInv (mkMind th ow iw rd sm) := by
    refine ⟨hth, hrd, hsm, ?_, ?_⟩
    · exact zeroDiagAux_rows 0 ow _ ⟨le_refl 0, by norm_num⟩ how
    · exact zeroDiagAux_rows 0 iw _ ⟨le_refl 0, by norm_num⟩ hiw
  have hdiag : DiagInv (mkMind th ow iw rd sm) := by
    constructor
    · intro i hi
      have hi' : i < ow.length := by
        rw [show (mkMind th ow iw rd sm).outputs_weights = zeroDiag ow from rfl,
          zeroDiag, zeroDiagAux_length] at hi
        exact hi
      show ((zeroDiag ow).getD i []).getD i 1 = 0
      rw [zeroDiag, zeroDiagAux_getD ow 0 i hi', Nat.zero_add]
      refine getD_set_self _ i 0 1 ?_
      rw [howr (ow.getD i []) (getD_mem_of_lt ow i [] hi'), ← howl]
      exact hi'
    · intro i hi
      have hi' : i < iw.length := by
        rw [show (mkMind th ow iw rd sm).input_weights = zeroDiag iw from rfl,
          zeroDiag, zeroDiagAux_length] at hi
        exact hi
      show ((zeroDiag iw).getD i []).getD i 1 = 0
      rw [zeroDiag, zeroDiagAux_getD iw 0 i hi', Nat.zero_add]
      refine getD_set_self _ i 0 1 ?_
      rw [hiwr (iw.getD i []) (getD_mem_of_lt iw i [] hi'), ← hiwl]
      exact hi'
  have helig : AllEligible (mkMind th ow iw rd sm) := by
    intro i
    unfold eligible
    rw [getD_zero_of_allZero _ hnext i]
    decide
  refine ⟨rfl, (validate_ok_inv _).mpr ⟨hshape, hrange, hdiag⟩, hdiag, hnext, hact, helig, ?_⟩
  intro i _ hpos
  refine ⟨helig i, ?_⟩
  have hpot : potential (mkMind th ow iw rd sm) i = 0 := by
    unfold potential
    rw [dot_zero_right _ _ hact, getD_zero_of_allZero _ hact i, qadd_eq, add_zero]
  rw [hpot]
  exact hpos

/-- Witness for the amended C10 at the all-zero draw. -/
theorem C10_initial_state_witness :
    (mkMind zeroVecDraw zeroMatDraw zeroMatDraw zeroVecDraw zeroVecDraw).tick = 0 ∧
    mind_validate (mkMind zeroVecDraw zeroMatDraw zeroMatDraw zeroVecDraw zeroVecDraw) =
      Except.ok () ∧
    DiagInv (mkMind zeroVecDraw zeroMatDraw zeroMatDraw zeroVecDraw zeroVecDraw) ∧
    AllZeroVec (mkMind zeroVecDraw zeroMatDraw zeroMatDraw zeroVecDraw
      zeroVecDraw).next_activations ∧
    AllZeroVec (mkMind zeroVecDraw zeroMatDraw zeroMatDraw zeroVecDraw
      zeroVecDraw).neural_activity ∧
    AllEligible (mkMind zeroVecDraw zeroMatDraw zeroMatDraw zeroVecDraw zeroVecDraw) ∧
    IdleWherePos (mkMind zeroVecDraw zeroMatDraw zeroMatDraw zeroVecDraw zeroVecDraw) :=
  C10_initial_state zeroVecDraw zeroMatDraw zeroMatDraw zeroVecDraw zeroVecDraw
    rfl rfl rfl rfl
    (by intro row hrow; rw [List.eq_of_mem_replicate hrow]; rfl)
    rfl
    (by intro row hrow; rw [List.eq_of_mem_replicate hrow]; rfl)
    (by intro x hx; rw [List.eq_of_mem_replicate hx]; norm_num)
    (by intro x hx; rw [List.eq_of_mem_replicate hx]; norm_num)
    (by intro x hx; rw [List.eq_of_mem_replicate hx]; norm_num)
    (by intro row hrow x hx
        rw [List.eq_of_mem_replicate hrow] at hx
        rw [List.eq_of_mem_replicate hx]; norm_num)
    (by intro row hrow x hx
        rw [List.eq_of_mem_replicate hrow] at hx
        rw [List.eq_of_mem_replicate hx]; norm_num)
